import Mathlib

/-!
Shallow embedding of the timezone-service routing core (TypeScript) in Lean 4:
the HTTP router's path matcher and request dispatch (`src/routing/Router.ts`),
the response helpers (`sendErrorResponse`), the metadata/service registries
(`RoutingRegistry`, `ServiceRegistry`), the Socket.io subscription server
(`src/routing/SocketIOServer.ts`), the per-topic WebSocket controller
(`src/controllers/TimezoneWebSocket.ts`) and the timezone service
(`src/services/timezone/TimezoneService.ts`).

JS-specific behaviour is modelled explicitly: objects as insertion-ordered
association lists with upsert semantics, `undefined` as `Option.none`,
truthiness of values cached in the service registry, sparse array hole
assignment, and external collaborators (the `Intl`/date-fns timezone engine,
`new`-construction, wall-clock time) as function parameters.
-/

namespace TZ

/-- `s.split('/')` at character level (the accumulator holds the current
part's characters in reverse). -/
def splitSlashAux (cur : List Char) : List Char → List String
  | [] => [String.mk cur.reverse]
  | c :: rest =>
    if c = '/' then String.mk cur.reverse :: splitSlashAux [] rest
    else splitSlashAux (c :: cur) rest

/-- `s.split('/').filter(part => part)`: split a path on `/` and drop empty
segments, as done at the top of `Router.matchRoute` and
`SocketServer.matchTimezoneRoute`. -/
def segs (s : String) : List String :=
  (splitSlashAux [] s.data).filter (fun part => part ≠ "")

/-- `s.startsWith(pre)` (character-level prefix test). -/
def strStartsWith (s pre : String) : Bool :=
  pre.data.isPrefixOf s.data

/-- `s.slice(n)` / `String.drop`: drop the first `n` characters. -/
def strDrop (s : String) (n : Nat) : String :=
  String.mk (s.data.drop n)

/-- `parts.join('/')`. -/
def joinSlash : List String → String
  | [] => ""
  | [s] => s
  | s :: rest => s ++ "/" ++ joinSlash rest

/-- Value of a hexadecimal digit, `none` for non-hex characters. -/
def hexVal (c : Char) : Option Nat :=
  if '0' ≤ c ∧ c ≤ '9' then some (c.toNat - '0'.toNat)
  else if 'a' ≤ c ∧ c ≤ 'f' then some (c.toNat - 'a'.toNat + 10)
  else if 'A' ≤ c ∧ c ≤ 'F' then some (c.toNat - 'A'.toNat + 10)
  else none

/-- Character-level percent decoding: `%xy` with hex digits `x`, `y` becomes
the character with code `16*x + y`; other characters pass through. -/
def percentDecodeAux : List Char → List Char
  | '%' :: a :: b :: rest =>
    match hexVal a, hexVal b with
    | some x, some y => Char.ofNat (16 * x + y) :: percentDecodeAux rest
    | _, _ => '%' :: percentDecodeAux (a :: b :: rest)
  | c :: rest => c :: percentDecodeAux rest
  | [] => []

/-- Model of JavaScript `decodeURIComponent` restricted to single-byte
escape sequences (the claims under study do not depend on multi-byte
decoding; malformed sequences are passed through rather than throwing). -/
def decodeURIComponent (s : String) : String :=
  ⟨percentDecodeAux s.data⟩

/-- Captured path parameters: a JS object used as a string-keyed record,
i.e. an insertion-ordered association list. -/
abbrev Params := List (String × String)

/-- JS object property read `params[name]`; `none` models `undefined`. -/
def lookupP (ps : Params) (k : String) : Option String :=
  (ps.find? (fun kv => kv.1 == k)).map (·.2)

/-- JS object property write `params[name] = v`: overwrite in place if the
key exists (keeping its position), otherwise append. -/
def upsertP (ps : Params) (k v : String) : Params :=
  if ps.any (fun kv => kv.1 == k) then
    ps.map (fun kv => if kv.1 == k then (k, v) else kv)
  else ps ++ [(k, v)]

/-- The wildcard-branch literal check of `Router.matchRoute`: for every
`i < k`, require `i < pathParts.length` and `routeParts[i] === pathParts[i]`
(note: a non-final `:`-segment is compared verbatim here too). -/
def prefixOk (routeParts pathParts : List String) (k : Nat) : Bool :=
  (List.range k).all
    (fun i => decide (i < pathParts.length) && (routeParts.getD i "" == pathParts.getD i ""))

/-- The exact-arity matching loop of `Router.matchRoute`: walk pattern and
path segments in lock-step; a `:name` segment captures the percent-decoded
path segment, a literal segment must be equal; mismatch returns `null`. -/
def exactMatchAux (acc : Params) : List String → List String → Option Params
  | [], [] => some acc
  | r :: rs, p :: ps =>
    if strStartsWith r ":" then
      exactMatchAux (upsertP acc (strDrop r 1) (decodeURIComponent p)) rs ps
    else if r == p then exactMatchAux acc rs ps
    else none
  | _, _ => none

/-- `Router.matchRoute` standard branch: `routeParts.length !== pathParts.length`
returns `null`, else the lock-step loop. -/
def exactMatch (routeParts pathParts : List String) : Option Params :=
  if routeParts.length ≠ pathParts.length then none
  else exactMatchAux [] routeParts pathParts

/-- `Router.matchRoute(pathname, routePath)`: if the pattern's last segment
starts with `:`, check all earlier segments verbatim (`return null` on
mismatch); when the path has at least as many segments as the pattern,
capture the slash-joined, percent-decoded remainder under the final
parameter's name; otherwise, and for non-wildcard patterns, fall through to
exact-arity matching. -/
def matchRoute (pathname routePath : String) : Option Params :=
  let routeParts := segs routePath
  let pathParts := segs pathname
  if routeParts.length > 0 && strStartsWith (routeParts.getLastD "") ":" then
    let lastParamIndex := routeParts.length - 1
    if prefixOk routeParts pathParts lastParamIndex then
      if pathParts.length ≥ routeParts.length then
        some [(strDrop (routeParts.getLastD "") 1,
               decodeURIComponent (joinSlash (pathParts.drop lastParamIndex)))]
      else exactMatch routeParts pathParts
    else none
  else exactMatch routeParts pathParts

/-- `SocketServer.matchTimezoneRoute(timezone, routePath)`: the route matches
iff some segment is literally `":timezone"`; on match the params bind
`timezone` to the raw topic value. -/
def matchTimezoneRoute (timezone routePath : String) : Option Params :=
  let routeParts := segs routePath
  match routeParts.findIdx? (fun part => part == ":timezone") with
  | some _ => some [("timezone", timezone)]
  | none => none

/-- Does `sub` occur as a contiguous run inside the character list? -/
def hasInfixAux (sub : List Char) : List Char → Bool
  | [] => sub.isEmpty
  | c :: rest => sub.isPrefixOf (c :: rest) || hasInfixAux sub rest

/-- `s.includes(sub)`: literal, case-sensitive substring test. -/
def strIncludes (s sub : String) : Bool :=
  hasInfixAux sub.data s.data

/-- JSON-serialisable JavaScript values, as far as the responses need:
strings and string-keyed objects (insertion-ordered field lists). -/
inductive JSV where
  | str (s : String)
  | obj (fields : List (String × JSV))

/-- JS object spread `{...a, ...b}` on serialised objects: fields of `b`
overwrite same-named fields of `a` in place, new fields are appended. -/
def spreadF (a b : List (String × JSV)) : List (String × JSV) :=
  b.foldl
    (fun acc kv =>
      if acc.any (fun kv2 => kv2.1 == kv.1) then
        acc.map (fun kv2 => if kv2.1 == kv.1 then kv else kv2)
      else acc ++ [kv])
    a

/-- The response as far as the router writes it: `res.statusCode` (unset
until assigned) and the JSON body passed to `res.end` (absent until
written). CORS and content-type headers are set unconditionally and carry
no information for the properties studied here. -/
structure Res where
  status : Option Nat
  body : Option JSV

/-- The response state before the router writes anything. -/
def initRes : Res := { status := none, body := none }

/-- `sendErrorResponse(res, statusCode, error, message, additionalData)`
from `responseUtils`: body is `{error, message, ...additionalData}`
(a `requested_timezone: undefined` entry is dropped by serialisation, so
`additional` holds only present fields). -/
def sendErrorResponse (statusCode : Nat) (error message : String)
    (additional : List (String × JSV)) : Res :=
  { status := some statusCode,
    body := some (.obj (spreadF [("error", .str error), ("message", .str message)] additional)) }

/-- The catch block of `Router.handleRequest`: classify the thrown message
as a validation error iff it contains `"timezone"` or `"Invalid"`; send 400
with `requested_timezone` (when the `timezone` path value was captured) or
500 with a generic error name. -/
def routerCatch (errorMessage : String) (params : Params) : Res :=
  let isValidationError :=
    strIncludes errorMessage "timezone" || strIncludes errorMessage "Invalid"
  sendErrorResponse
    (if isValidationError then 400 else 500)
    (if isValidationError then "Invalid timezone" else "Internal server error")
    errorMessage
    (if isValidationError then
      match lookupP params "timezone" with
      | some tz => [("requested_timezone", JSV.str tz)]
      | none => []
     else [])

/-- What a handler invocation does: return a value, return `undefined`
(modelled `ret none`), or throw an error with a message. -/
inductive Outcome where
  | ret (v : Option JSV)
  | thr (message : String)

/-- A handler already closed over its injected services: it takes the
captured path parameters (resolved by `extractParameters`) and produces an
outcome. -/
abbrev Handler := Params → Outcome

/-- A route as `RouteMetadata` drives dispatch: method, path pattern, and
the controller's handler method (`none` models `controller[route.handler]`
being absent, in which case the route is skipped). -/
structure RouteE where
  method : String
  path : String
  handler : Option Handler

/-- The route-scanning loop of `Router.handleRequest`: first route (in
registration order) with the right method, a path match and a present
handler wins; the nested controller/route loops scan the concatenation of
the controllers' route lists. -/
def findDispatch (method pathname : String) : List RouteE → Option (Handler × Params)
  | [] => none
  | r :: rs =>
    if r.method == method then
      match matchRoute pathname r.path with
      | some params =>
        match r.handler with
        | some h => some (h, params)
        | none => findDispatch method pathname rs
      | none => findDispatch method pathname rs
    else findDispatch method pathname rs

/-- The body of `Router.handleRequest` after a dispatch: a non-`undefined`
return is serialised with status 200, `undefined` writes nothing, a throw
goes through the catch block. -/
def respond (o : Outcome) (params : Params) : Res :=
  match o with
  | .ret none => initRes
  | .ret (some v) => { status := some 200, body := some v }
  | .thr msg => routerCatch msg params

/-- `Router.handleRequest(req, res)`: returns whether the request was
handled together with the response written; `false` leaves the response
untouched for the caller's 404 fallback. Controllers are their route
lists; the nested iteration equals scanning the flattened list. -/
def handleRequest (controllers : List (List RouteE)) (method pathname : String) :
    Bool × Res :=
  match findDispatch method pathname (controllers.flatMap id) with
  | some (h, params) => (true, respond (h params) params)
  | none => (false, initRes)

/-- The `http.createServer` callback of the entrypoint: when
`handleRequest` reports `false`, send the fixed 404 guidance payload. -/
def serverRespond (controllers : List (List RouteE)) (method pathname : String) : Res :=
  let (handled, res) := handleRequest controllers method pathname
  if handled then res
  else
    sendErrorResponse 404 "Not found"
      "Use /time/{timezone} endpoint to get current time in a specific timezone"
      [("example", .str "/time/Etc/UTC")]

/-- Result type of `TimezoneService.getValidatedTimeInTimezone`
(`TimezoneValidationResult`). -/
inductive TZResult where
  | ok (time : String)
  | err (error : String)

/-- `TimezoneService.getTimeInTimezone`: the date-fns/Intl computation is
the external collaborator `fmt` (`none` models it throwing); any failure is
rethrown as `'Failed to get time in timezone'`. -/
def getTimeInTimezone (fmt : String → Option String) (tz : String) :
    Except String String :=
  match fmt tz with
  | some t => Except.ok t
  | none => Except.error "Failed to get time in timezone"

/-- `TimezoneService.getValidatedTimeInTimezone`: validation via the
engine's `isValid`, then the time computation, with its exception converted
to an error result. -/
def getValidatedTimeInTimezone (isValid : String → Bool)
    (fmt : String → Option String) (tz : String) : TZResult :=
  if !(isValid tz) then
    .err ("The timezone identifier '" ++ tz ++ "' is not valid")
  else
    match getTimeInTimezone fmt tz with
    | .ok t => .ok t
    | .error _ => .err "Failed to get time in timezone"

/-- `TimezoneController.getTimeByTimezone`: throws the error of a failed
validation result, otherwise returns `{timezone, current_time, timestamp}`
(`now` is the wall-clock `new Date().toISOString()`). -/
def getTimeByTimezone (isValid : String → Bool) (fmt : String → Option String)
    (now : String) (timezone : String) : Outcome :=
  match getValidatedTimeInTimezone isValid fmt timezone with
  | .err e => .thr e
  | .ok t =>
    .ret (some (.obj [("timezone", .str timezone), ("current_time", .str t),
                      ("timestamp", .str now)]))

/-- The `TimezoneController` route list: `GET /time/:timezone`, the handler
taking the captured `timezone` value at parameter index 0 (the injected
`TimezoneService` at index 1 is the closure over `isValid`/`fmt`). -/
def timezoneControllerRoutes (isValid : String → Bool)
    (fmt : String → Option String) (now : String) : List RouteE :=
  [{ method := "GET", path := "/time/:timezone",
     handler := some (fun ps =>
       getTimeByTimezone isValid fmt now ((lookupP ps "timezone").getD "")) }]

/-! ## RoutingRegistry (`shared/metadata`)

Controller classes are identified by `Nat` keys (object identity of the
constructor function), service types likewise. A JS `Map` is an
insertion-ordered association list whose `set` overwrites in place;
`Array.prototype.find` returns the first hit and mutating it mutates the
stored element, modelled by `updateFirst`. -/

/-- Replace the first element satisfying `p` by its image under `f`
(mutation of the object returned by `Array.prototype.find`). -/
def updateFirst (p : α → Bool) (f : α → α) : List α → List α
  | [] => []
  | a :: l => if p a then f a :: l else a :: updateFirst p f l

/-- `ParameterMetadata.type`. -/
inductive PKind where
  | param
  | service
deriving DecidableEq, Repr

/-- `ParameterMetadata`: positional index, kind, optional `@PARAM` name,
optional service constructor identity. -/
structure ParamMeta where
  index : Nat
  type : PKind
  name : Option String
  serviceType : Option Nat
deriving DecidableEq, Repr

/-- `RouteMetadata`. `paramNames` is a JS array written with hole-creating
index assignment, so entries are optional. -/
structure RouteMeta where
  method : String
  path : String
  handler : String
  paramNames : List (Option String)
  parameters : List ParamMeta
deriving DecidableEq, Repr

/-- `ControllerMetadata`. -/
structure ControllerMeta where
  routes : List RouteMeta
deriving DecidableEq, Repr

/-- The registry's `controllers` map. -/
abbrev Registry := List (Nat × ControllerMeta)

/-- `route.paramNames[i] = name`: JS sparse assignment, padding with holes
when `i` is beyond the current length. -/
def setSparse (l : List (Option String)) (i : Nat) (v : String) : List (Option String) :=
  if i < l.length then l.set i (some v)
  else l ++ List.replicate (i - l.length) none ++ [some v]

/-- The parameter upsert inside `registerParam`: mutate the first spec with
this index (setting only `type` and `name`), else push a fresh spec. -/
def upsertParamSpec (n : String) (i : Nat) (ps : List ParamMeta) : List ParamMeta :=
  if ps.any (fun p => p.index == i) then
    updateFirst (fun p => p.index == i)
      (fun p => { p with type := .param, name := some n }) ps
  else ps ++ [⟨i, .param, some n, none⟩]

/-- The parameter upsert inside `registerServiceParameter`: mutate the first
spec with this index (setting only `type` and `serviceType`), else push. -/
def upsertServiceSpec (i : Nat) (stype : Nat) (ps : List ParamMeta) : List ParamMeta :=
  if ps.any (fun p => p.index == i) then
    updateFirst (fun p => p.index == i)
      (fun p => { p with type := .service, serviceType := some stype }) ps
  else ps ++ [⟨i, .service, none, some stype⟩]

/-- What `registerParam` does to the found (or fresh) route. -/
def applyParamReg (n : String) (i : Nat) (r : RouteMeta) : RouteMeta :=
  { r with paramNames := setSparse r.paramNames i n,
           parameters := upsertParamSpec n i r.parameters }

/-- What `registerServiceParameter` does to the found (or fresh) route. -/
def applyServiceReg (i : Nat) (stype : Nat) (r : RouteMeta) : RouteMeta :=
  { r with parameters := upsertServiceSpec i stype r.parameters }

/-- The placeholder route pushed when a parameter decorator runs before the
method decorator: empty method and path. -/
def freshRoute (handler : String) : RouteMeta :=
  { method := "", path := "", handler := handler, paramNames := [], parameters := [] }

/-- `route.handler === handler`, the lookup predicate of all three
registration methods. -/
def hasHandler (handler : String) (r : RouteMeta) : Bool :=
  r.handler == handler

/-- `RoutingRegistry.registerRoute` on one controller's metadata: overwrite
`method`/`path` of the existing route for this handler, else push a new
route. `autoDetectServiceParameters` reads `design:paramtypes` reflection
metadata; with none recorded its `forEach` body never runs, so the
best-effort auto-detection adds nothing here (it is explicitly out of scope
for the registration-order properties below). -/
def registerRouteMeta (method path handler : String) (m : ControllerMeta) : ControllerMeta :=
  if m.routes.any (hasHandler handler) then
    ⟨updateFirst (hasHandler handler)
      (fun r => { r with method := method, path := path }) m.routes⟩
  else
    ⟨m.routes ++ [{ method := method, path := path, handler := handler,
                    paramNames := [], parameters := [] }]⟩

/-- `RoutingRegistry.registerParam` on one controller's metadata. -/
def registerParamMeta (handler name : String) (i : Nat) (m : ControllerMeta) : ControllerMeta :=
  if m.routes.any (hasHandler handler) then
    ⟨updateFirst (hasHandler handler) (applyParamReg name i) m.routes⟩
  else
    ⟨m.routes ++ [applyParamReg name i (freshRoute handler)]⟩

/-- `RoutingRegistry.registerServiceParameter` on one controller's metadata. -/
def registerServiceParamMeta (handler : String) (i : Nat) (stype : Nat)
    (m : ControllerMeta) : ControllerMeta :=
  if m.routes.any (hasHandler handler) then
    ⟨updateFirst (hasHandler handler) (applyServiceReg i stype) m.routes⟩
  else
    ⟨m.routes ++ [applyServiceReg i stype (freshRoute handler)]⟩

/-- `if (!controllers.has(target)) controllers.set(target, {routes: []})`. -/
def ensureController (t : Nat) (reg : Registry) : Registry :=
  if reg.any (fun e => e.1 == t) then reg else reg ++ [(t, ⟨[]⟩)]

/-- Mutate the metadata object stored under key `t` (a no-op on other
entries). -/
def mapController (t : Nat) (f : ControllerMeta → ControllerMeta) (reg : Registry) : Registry :=
  reg.map (fun e => if e.1 == t then (e.1, f e.2) else e)

/-- `RoutingRegistry.registerRoute(target, method, path, handler)`. -/
def registerRoute (t : Nat) (method path handler : String) (reg : Registry) : Registry :=
  mapController t (registerRouteMeta method path handler) (ensureController t reg)

/-- `RoutingRegistry.registerParam(target, handler, paramName, paramIndex)`. -/
def registerParam (t : Nat) (handler name : String) (i : Nat) (reg : Registry) : Registry :=
  mapController t (registerParamMeta handler name i) (ensureController t reg)

/-- `RoutingRegistry.registerServiceParameter(target, handler, paramIndex, serviceType)`. -/
def registerServiceParameter (t : Nat) (handler : String) (i : Nat) (stype : Nat)
    (reg : Registry) : Registry :=
  mapController t (registerServiceParamMeta handler i stype) (ensureController t reg)

/-- `RoutingRegistry.getControllerMetadata`. -/
def getControllerMetadata (t : Nat) (reg : Registry) : Option ControllerMeta :=
  (reg.find? (fun e => e.1 == t)).map (·.2)

/-- The `metadata.routes.find(r => r.handler === handler)` lookup. -/
def findRoute (handler : String) (m : ControllerMeta) : Option RouteMeta :=
  m.routes.find? (hasHandler handler)

/-! ## ServiceRegistry (`shared/ServiceRegistry`)

Service identifiers (constructor functions) are `Nat` keys; cached values
are JavaScript values, because `getOrCreateService` tests the cached value
with `if (!service)` — i.e. truthiness, not map membership. -/

/-- JavaScript values as the service cache can hold them. -/
inductive JSVal where
  | obj (id : Nat)
  | strV (s : String)
  | numV (n : Int)
  | boolV (b : Bool)
  | nullV
  | undefV
deriving DecidableEq, Repr

/-- JavaScript truthiness. -/
def truthy : JSVal → Bool
  | .obj _ => true
  | .strV s => !s.isEmpty
  | .numV n => n != 0
  | .boolV b => b
  | .nullV => false
  | .undefV => false

/-- The `services` map. -/
abbrev Services := List (Nat × JSVal)

/-- `Map.prototype.set`: overwrite in place, else append. -/
def mapSet (m : Services) (k : Nat) (v : JSVal) : Services :=
  if m.any (fun e => e.1 == k) then
    m.map (fun e => if e.1 == k then (k, v) else e)
  else m ++ [(k, v)]

/-- `Map.prototype.get`; `none` models `undefined`. -/
def mapGet (m : Services) (k : Nat) : Option JSVal :=
  (m.find? (fun e => e.1 == k)).map (·.2)

/-- `ServiceRegistry.registerService(serviceType, serviceInstance)`. -/
def registerService (k : Nat) (inst : JSVal) (m : Services) : Services :=
  mapSet m k inst

/-- `ServiceRegistry.getOrCreateService(serviceType)`: read the cache; if
the value is falsy (missing, or a cached falsy value), construct
`new serviceType()` (the external `construct`), cache and return it. The
returned flag records whether a construction happened. -/
def getOrCreateService (construct : Nat → JSVal) (k : Nat) (m : Services) :
    JSVal × Services × Bool :=
  let service := (mapGet m k).getD .undefV
  if !(truthy service) then
    let c := construct k
    (c, mapSet m k c, true)
  else
    (service, m, false)

/-! ## Subscription server (`SocketIOServer.ts` + `TimezoneWebSocket.ts`)

An operational model of `handleTimezoneSubscription`, the controller's
`onConnect` and the `change-timezone` handler. Sockets are `Nat`s; client
records live in a heap keyed by creation order, because the controller's
`Set` and the event closures alias the same mutable object. The
`engineOk` oracle abstracts `getValidatedTimeInTimezone` succeeding for a
timezone (it decides only which event an update emission carries). -/

/-- A `SocketIOClient` record: `{socket, timezone, intervalId?}`. -/
structure ClientRec where
  sock : Nat
  timezone : String
  intervalId : Option Nat
deriving DecidableEq, Repr

/-- A cached `TimezoneWebSocket` controller instance: the
constructor-bound timezone and its `clients` set (ids into the heap, in
insertion order). -/
structure Inst where
  tz : String
  clients : List Nat
deriving DecidableEq, Repr

/-- One `socket.emit`: receiving socket, event name, and the message's
distinguishing datum (the payload's timezone for updates and update
errors, the error message for a failed route match). -/
structure Emit where
  sock : Nat
  event : String
  data : String
deriving DecidableEq, Repr

/-- Subscription-server state: fresh-id counters, the client-record heap,
the `webSocketInstances` cache, the Socket.io rooms (room name × member
socket), the set of live `setInterval` handles, and the emission log. -/
structure SState where
  nextClient : Nat
  nextTimer : Nat
  clients : List (Nat × ClientRec)
  instances : List (String × Inst)
  rooms : List (String × Nat)
  activeTimers : List Nat
  emitted : List Emit
deriving DecidableEq, Repr

/-- The state before any connection. -/
def initS : SState :=
  { nextClient := 0, nextTimer := 0, clients := [], instances := [],
    rooms := [], activeTimers := [], emitted := [] }

/-- Read a client record from the heap. -/
def lookupClient (cid : Nat) (st : SState) : Option ClientRec :=
  (st.clients.find? (fun e => e.1 == cid)).map (·.2)

/-- Overwrite a client record in the heap (mutation of the shared object). -/
def setClient (cid : Nat) (c : ClientRec) (st : SState) : SState :=
  { st with clients := st.clients.map (fun e => if e.1 == cid then (cid, c) else e) }

/-- `TimezoneWebSocket.sendTimeUpdate(client)`: exactly one emission to the
client's socket — a `time-update` when the engine accepts the client's
current timezone, an `error` otherwise (failures are caught and converted,
never thrown). -/
def sendTimeUpdate (engineOk : String → Bool) (c : ClientRec) (st : SState) : SState :=
  { st with emitted := st.emitted ++
      [if engineOk c.timezone then ⟨c.sock, "time-update", c.timezone⟩
       else ⟨c.sock, "error", c.timezone⟩] }

/-- `TimezoneWebSocket.onConnect(client)`: add the record to the instance's
set, push one immediate update, then start this record's 1-second interval
(a fresh live timer stored on the record). The disconnect/get-time/
change-timezone listeners are closures over the record, modelled by the
operations below. -/
def onConnect (engineOk : String → Bool) (instKey : String) (sock : Nat)
    (tz : String) (st : SState) : SState :=
  let cid := st.nextClient
  let c : ClientRec := { sock := sock, timezone := tz, intervalId := none }
  let st := { st with
    nextClient := cid + 1,
    clients := st.clients ++ [(cid, c)],
    instances := st.instances.map (fun e =>
      if e.1 == instKey then (e.1, { e.2 with clients := e.2.clients ++ [cid] }) else e) }
  let st := sendTimeUpdate engineOk c st
  let t := st.nextTimer
  let st := setClient cid { c with intervalId := some t } st
  { st with nextTimer := t + 1, activeTimers := st.activeTimers ++ [t] }

/-- `SocketServer.handleTimezoneSubscription(socket, timezone)`: join the
`timezone-`-prefixed room, scan registered WebSocket routes with
`matchTimezoneRoute`, get-or-create the per-`(class, timezone)` controller
instance, build a fresh client record and call `onConnect`; with no
matching route, emit a single error. A re-subscribe runs the same code —
nothing touches previously created records. -/
def subscribe (routes : List String) (engineOk : String → Bool) (sock : Nat)
    (tz : String) (st : SState) : SState :=
  let room := "timezone-" ++ tz
  let st := { st with rooms :=
    if st.rooms.contains (room, sock) then st.rooms else st.rooms ++ [(room, sock)] }
  match routes.find? (fun r => (matchTimezoneRoute tz r).isSome) with
  | none => { st with emitted := st.emitted ++ [⟨sock, "error", "Route not found"⟩] }
  | some _ =>
    let instKey := "TimezoneWebSocket-" ++ tz
    let st :=
      if st.instances.any (fun e => e.1 == instKey) then st
      else { st with instances := st.instances ++ [(instKey, ⟨tz, []⟩)] }
    onConnect engineOk instKey sock tz st

/-- The `change-timezone` listener installed by `onConnect`: the closure
mutates the aliased client record's `timezone` field and pushes one update
(the heap id stands for the aliased object; the listener always holds a
live record). -/
def changeTimezone (engineOk : String → Bool) (cid : Nat) (newTz : String)
    (st : SState) : SState :=
  match lookupClient cid st with
  | none => st
  | some c =>
    let c2 := { c with timezone := newTz }
    sendTimeUpdate engineOk c2 (setClient cid c2 st)

/-- Number of live interval timers attached to records of one socket. -/
def timersFor (sock : Nat) (st : SState) : Nat :=
  st.clients.countP (fun e =>
    e.2.sock == sock &&
      (match e.2.intervalId with
       | some t => st.activeTimers.contains t
       | none => false))

/-! ## Helper lemmas about `updateFirst` and ordered maps -/

theorem length_updateFirst (p : α → Bool) (f : α → α) (l : List α) :
    (updateFirst p f l).length = l.length := by
  induction l with
  | nil => rfl
  | cons a l ih => by_cases h : p a = true <;> simp [updateFirst, h, ih]

theorem map_updateFirst {p : α → Bool} {f : α → α} {g : α → β}
    (h : ∀ a, g (f a) = g a) (l : List α) :
    (updateFirst p f l).map g = l.map g := by
  induction l with
  | nil => rfl
  | cons a l ih => by_cases hp : p a = true <;> simp [updateFirst, hp, ih, h]

theorem any_updateFirst {p : α → Bool} {f : α → α}
    (h : ∀ a, p (f a) = p a) (l : List α) :
    (updateFirst p f l).any p = l.any p := by
  induction l with
  | nil => rfl
  | cons a l ih => by_cases hp : p a = true <;> simp [updateFirst, hp, ih, h]

theorem updateFirst_congr {p : α → Bool} {f g : α → α}
    (h : ∀ a, f a = g a) (l : List α) :
    updateFirst p f l = updateFirst p g l := by
  induction l with
  | nil => rfl
  | cons a l ih => by_cases hp : p a = true <;> simp [updateFirst, hp, ih, h]

theorem updateFirst_comp {p : α → Bool} {f g : α → α}
    (h : ∀ a, p a = true → p (g a) = true) (l : List α) :
    updateFirst p f (updateFirst p g l) = updateFirst p (fun a => f (g a)) l := by
  induction l with
  | nil => rfl
  | cons a l ih =>
    by_cases hp : p a = true
    · simp [updateFirst, hp, h a hp]
    · simp [updateFirst, hp, ih]

theorem updateFirst_append_notany {p : α → Bool} {f : α → α} {l : List α} {x : α}
    (h : l.any p = false) (hx : p x = true) :
    updateFirst p f (l ++ [x]) = l ++ [f x] := by
  induction l with
  | nil => simp [updateFirst, hx]
  | cons a l ih =>
    simp only [List.any_cons, Bool.or_eq_false_iff] at h
    simp [updateFirst, h.1, ih h.2]

theorem find?_updateFirst {p : α → Bool} {f : α → α}
    (h : ∀ a, p (f a) = p a) (l : List α) :
    (updateFirst p f l).find? p = (l.find? p).map f := by
  induction l with
  | nil => rfl
  | cons a l ih =>
    by_cases hp : p a = true
    · simp [updateFirst, hp, List.find?_cons, h]
    · simp only [Bool.not_eq_true] at hp
      simp [updateFirst, hp, List.find?_cons, ih]

theorem countP_updateFirst {p : α → Bool} {f : α → α}
    (h : ∀ a, p (f a) = p a) (l : List α) :
    (updateFirst p f l).countP p = l.countP p := by
  induction l with
  | nil => rfl
  | cons a l ih =>
    by_cases hp : p a = true <;>
      simp [updateFirst, hp, ih, List.countP_cons, h]

theorem mem_updateFirst {p : α → Bool} {f : α → α} {l : List α} {x : α}
    (hx : x ∈ updateFirst p f l) : x ∈ l ∨ ∃ a ∈ l, x = f a := by
  induction l with
  | nil => simp [updateFirst] at hx
  | cons a l ih =>
    by_cases hp : p a = true
    · simp only [updateFirst, hp, if_true, List.mem_cons] at hx
      rcases hx with hx | hx
      · exact Or.inr ⟨a, List.mem_cons_self a l, hx⟩
      · exact Or.inl (List.mem_cons_of_mem a hx)
    · simp only [updateFirst, hp, if_false] at hx
      cases hx with
      | head => exact Or.inl (List.mem_cons_self _ _)
      | tail _ hx =>
        rcases ih hx with h' | ⟨b, hb, hbx⟩
        · exact Or.inl (List.mem_cons_of_mem a h')
        · exact Or.inr ⟨b, List.mem_cons_of_mem a hb, hbx⟩

theorem findIdx?_isSome (p : α → Bool) (l : List α) :
    ∀ i, (List.findIdx? p l i).isSome = l.any p := by
  induction l with
  | nil => intro i; simp [List.findIdx?_nil]
  | cons a l ih =>
    intro i
    by_cases h : p a = true <;> simp [List.findIdx?_cons, h, ih]

theorem prefixOk_iff (rp pp : List String) (k : Nat) :
    prefixOk rp pp k = true ↔
      ∀ i < k, i < pp.length ∧ rp.getD i "" = pp.getD i "" := by
  unfold prefixOk
  rw [List.all_eq_true]
  constructor
  · intro h i hi
    have := h i (List.mem_range.mpr hi)
    simpa only [Bool.and_eq_true, decide_eq_true_eq, beq_iff_eq] using this
  · intro h x hx
    have := h x (List.mem_range.mp hx)
    simpa only [Bool.and_eq_true, decide_eq_true_eq, beq_iff_eq] using this

/-! ## Theorems about the claims -/

/-- C9 (counterexample): the subscription-time route match is NOT structural
over arbitrary `:`-prefixed parameter segments: the pattern
`/time/live/:tz` has a `:`-prefixed final segment, yet no topic value
matches it, because `matchTimezoneRoute` looks for the literal segment
`":timezone"` only. -/
theorem nontimezone_param_route_no_match :
    matchTimezoneRoute "UTC" "/time/live/:tz" = none ∧
      ((segs "/time/live/:tz").any (fun s => strStartsWith s ":")) = true := by
  decide

/-- C9 (amended): a registered route matches a topic value iff its pattern
contains a segment literally equal to `":timezone"`; in that case the match
binds the key `"timezone"` (regardless of the parameter name used anywhere
else) to the topic value, whatever its content; a route without such a
segment never matches. -/
theorem timezone_route_match_characterisation (tz routePath : String) :
    matchTimezoneRoute tz routePath =
      (if ":timezone" ∈ segs routePath then some [("timezone", tz)] else none) := by
  have hany : ((segs routePath).any (fun part => part == ":timezone") = true) ↔
      ":timezone" ∈ segs routePath := by
    rw [List.any_eq_true]
    constructor
    · rintro ⟨x, hx, hbeq⟩
      have : x = ":timezone" := by simpa using hbeq
      rwa [this] at hx
    · intro hm
      exact ⟨_, hm, by simp⟩
  have h := findIdx?_isSome (fun part => part == ":timezone") (segs routePath) 0
  cases hfi : List.findIdx? (fun part => part == ":timezone") (segs routePath) with
  | none =>
    rw [hfi] at h
    simp only [Option.isSome_none] at h
    have hnm : ":timezone" ∉ segs routePath := by
      intro hm
      rw [← hany] at hm
      rw [hm] at h
      exact Bool.false_ne_true h
    rw [if_neg hnm]
    simp only [matchTimezoneRoute]
    rw [hfi]
  | some k =>
    rw [hfi] at h
    simp only [Option.isSome_some] at h
    rw [if_pos (hany.mp h.symm)]
    simp only [matchTimezoneRoute]
    rw [hfi]

/-- C1 (counterexample): for the pattern `/a/:x/:y` (last segment starts
with `:`) and the request `/a/b/c`, every literal segment before the final
parameter matches and the request has as many segments as the pattern, yet
the match fails: the wildcard branch compares the intermediate `:x` segment
verbatim against `b` and returns `null` without falling through. -/
theorem wildcard_literal_prefix_claim_refuted :
    matchRoute "/a/b/c" "/a/:x/:y" = none ∧
      strStartsWith ((segs "/a/:x/:y").getLastD "") ":" = true ∧
      (∀ i < (segs "/a/:x/:y").length - 1,
        strStartsWith ((segs "/a/:x/:y").getD i "") ":" = false →
          (segs "/a/:x/:y").getD i "" = (segs "/a/b/c").getD i "") ∧
      (segs "/a/:x/:y").length ≤ (segs "/a/b/c").length := by
  decide

/-- C1 (amended): for a pattern whose last segment starts with `:`, the
match succeeds iff every pattern segment before the last one — compared
verbatim, `:`-prefixed segments included — equals the corresponding request
segment and the request has at least as many segments as the pattern; on
success the entire remainder of the request path (the request segments from
the final parameter's position onward, slash-joined, percent-decoded) is
captured under the final parameter's name. -/
theorem wildcard_match_characterisation (routePath pathname : String)
    (h1 : segs routePath ≠ [])
    (h2 : strStartsWith ((segs routePath).getLastD "") ":" = true) :
    ((matchRoute pathname routePath).isSome = true ↔
      ((∀ i < (segs routePath).length - 1,
          i < (segs pathname).length ∧
            (segs routePath).getD i "" = (segs pathname).getD i "") ∧
        (segs routePath).length ≤ (segs pathname).length)) ∧
    (∀ m, matchRoute pathname routePath = some m →
        m = [(strDrop ((segs routePath).getLastD "") 1,
              decodeURIComponent (joinSlash
                ((segs pathname).drop ((segs routePath).length - 1))))]) := by
  have hcond : (decide ((segs routePath).length > 0) &&
      strStartsWith ((segs routePath).getLastD "") ":") = true := by
    rw [Bool.and_eq_true, decide_eq_true_eq]
    exact ⟨List.length_pos.mpr h1, h2⟩
  simp only [matchRoute]
  rw [if_pos hcond]
  by_cases hpok :
      prefixOk (segs routePath) (segs pathname) ((segs routePath).length - 1) = true
  · rw [if_pos hpok]
    by_cases hlen : (segs pathname).length ≥ (segs routePath).length
    · rw [if_pos hlen]
      constructor
      · exact iff_of_true rfl ⟨(prefixOk_iff _ _ _).mp hpok, hlen⟩
      · intro m hm
        injection hm with h2
        exact h2.symm
    · rw [if_neg hlen]
      have hne : (segs routePath).length ≠ (segs pathname).length := by
        intro heq
        exact hlen (le_of_eq heq)
      unfold exactMatch
      rw [if_pos hne]
      constructor
      · exact iff_of_false (by simp) (fun hc => hlen hc.2)
      · intro m hm
        exact absurd hm (by simp)
  · rw [if_neg hpok]
    constructor
    · exact iff_of_false (by simp) (fun hc => hpok ((prefixOk_iff _ _ _).mpr hc.1))
    · intro m hm
      exact absurd hm (by simp)

/-- C1 (witness): the claim's own example — matching `/time/:timezone`
against `/time/America/Argentina/Buenos_Aires` succeeds, and the whole
remainder is captured as the `timezone` value. -/
theorem wildcard_match_characterisation_witness :
    (matchRoute "/time/America/Argentina/Buenos_Aires" "/time/:timezone").isSome = true ∧
      matchRoute "/time/America/Argentina/Buenos_Aires" "/time/:timezone" =
        some [("timezone", "America/Argentina/Buenos_Aires")] := by
  have h := wildcard_match_characterisation "/time/:timezone"
    "/time/America/Argentina/Buenos_Aires" (by decide) (by decide)
  exact ⟨h.1.mpr (by decide), by decide⟩

/-- C2: for a matched route whose handler throws, the status is 400 iff the
error message contains `"timezone"` or `"Invalid"` (case-sensitive literal
containment), in which case the body carries `requested_timezone` equal to
the captured `timezone` path value when one was captured; any other message
yields 500; in both cases the body is a JSON object starting with `error`
and `message` fields. -/
theorem error_classification_spec (msg : String) (params : Params) :
    ((routerCatch msg params).status = some 400 ↔
      (strIncludes msg "timezone" || strIncludes msg "Invalid") = true) ∧
    ((strIncludes msg "timezone" || strIncludes msg "Invalid") = false →
      (routerCatch msg params).status = some 500) ∧
    (∀ tz, (strIncludes msg "timezone" || strIncludes msg "Invalid") = true →
      lookupP params "timezone" = some tz →
      routerCatch msg params =
        { status := some 400,
          body := some (.obj [("error", .str "Invalid timezone"), ("message", .str msg),
                              ("requested_timezone", .str tz)]) }) ∧
    (∃ rest, (routerCatch msg params).body =
      some (.obj (("error", .str (if (strIncludes msg "timezone" || strIncludes msg "Invalid")
              then "Invalid timezone" else "Internal server error")) ::
            ("message", .str msg) :: rest))) := by
  by_cases hv : (strIncludes msg "timezone" || strIncludes msg "Invalid") = true
  · refine ⟨iff_of_true ?_ hv, ?_, ?_, ?_⟩
    · simp only [routerCatch, sendErrorResponse, hv, if_true]
    · intro hcontra
      rw [hv] at hcontra
      exact absurd hcontra (by decide)
    · intro tz _ hlk
      simp only [routerCatch, sendErrorResponse, hv, if_true, hlk]
      rfl
    · cases hl : lookupP params "timezone" with
      | some tz =>
        exact ⟨[("requested_timezone", .str tz)],
          by simp only [routerCatch, sendErrorResponse, hv, if_true, hl]; rfl⟩
      | none =>
        exact ⟨[],
          by simp only [routerCatch, sendErrorResponse, hv, if_true, hl]; rfl⟩
  · have hv' : (strIncludes msg "timezone" || strIncludes msg "Invalid") = false :=
      Bool.not_eq_true _ ▸ Bool.of_not_eq_true hv
    refine ⟨iff_of_false ?_ (by rw [hv']; exact fun h => absurd h (by decide)), ?_, ?_, ?_⟩
    · intro hst
      simp only [routerCatch, sendErrorResponse, hv', Bool.false_eq_true, if_false] at hst
      exact absurd hst (by simp)
    · intro _
      simp only [routerCatch, sendErrorResponse, hv', Bool.false_eq_true, if_false]
    · intro tz h1 _
      rw [hv'] at h1
      exact absurd h1 (by decide)
    · exact ⟨[],
        by simp only [routerCatch, sendErrorResponse, hv', Bool.false_eq_true, if_false]; rfl⟩

/-- C2 (witness): a non-matching message is answered 500; `"Invalid zone"`
with a captured timezone value gets the full 400 payload. -/
theorem error_classification_spec_witness :
    (routerCatch "Something broke" []).status = some 500 ∧
      routerCatch "Invalid zone" [("timezone", "X")] =
        { status := some 400,
          body := some (.obj [("error", .str "Invalid timezone"),
                              ("message", .str "Invalid zone"),
                              ("requested_timezone", .str "X")]) } :=
  ⟨(error_classification_spec "Something broke" []).2.1 (by decide),
   (error_classification_spec "Invalid zone" [("timezone", "X")]).2.2.1 "X" (by decide) rfl⟩

/-- C3 (counterexample): with an engine that validates every identifier but
whose time computation throws, `GET /time/Etc/UTC` is answered 400, not the
claimed 500: the rethrown message `'Failed to get time in timezone'`
contains the substring `"timezone"` and is classified as a validation
error. -/
theorem engine_failure_status_claim_refuted :
    (serverRespond [timezoneControllerRoutes (fun _ => true) (fun _ => none)
        "2024-01-01T00:00:00.000Z"] "GET" "/time/Etc/UTC").status = some 400 ∧
      (400 : Nat) ≠ 500 :=
  ⟨rfl, by decide⟩

/-- C3 (amended): when the engine accepts the identifier but the time
computation itself fails, the handler throws
`'Failed to get time in timezone'` and the router answers 400 (the message
contains `"timezone"`, so the heuristic classifies the internal failure as
a client validation error). -/
theorem engine_failure_gives_400 (isValid' : String → Bool)
    (fmt : String → Option String) (now tz : String)
    (hv : isValid' tz = true) (hf : fmt tz = none) :
    getTimeByTimezone isValid' fmt now tz = .thr "Failed to get time in timezone" ∧
      (respond (getTimeByTimezone isValid' fmt now tz) [("timezone", tz)]).status =
        some 400 := by
  have h1 : getTimeByTimezone isValid' fmt now tz =
      .thr "Failed to get time in timezone" := by
    simp only [getTimeByTimezone, getValidatedTimeInTimezone, getTimeInTimezone, hv, hf]
    rfl
  exact ⟨h1, by rw [h1]; rfl⟩

/-- C3 (witness): the amended theorem applied to the always-valid,
always-failing engine at `Etc/UTC`. -/
theorem engine_failure_gives_400_witness :
    (respond (getTimeByTimezone (fun _ => true) (fun _ => none) "t" "Etc/UTC")
        [("timezone", "Etc/UTC")]).status = some 400 :=
  (engine_failure_gives_400 (fun _ => true) (fun _ => none) "t" "Etc/UTC" rfl rfl).2

/-- C10: a matched route whose handler returns `undefined` without throwing
is still reported handled (`true`), so the caller's 404 fallback never
fires, yet the router sets no status code and writes no body. -/
theorem undefined_return_handled_no_write (controllers : List (List RouteE))
    (method pathname : String) (h : Handler) (ps : Params)
    (hd : findDispatch method pathname (controllers.flatMap id) = some (h, ps))
    (hr : h ps = .ret none) :
    handleRequest controllers method pathname = (true, initRes) ∧
      (handleRequest controllers method pathname).2.status = none ∧
      (handleRequest controllers method pathname).2.body = none ∧
      serverRespond controllers method pathname = initRes := by
  have h1 : handleRequest controllers method pathname = (true, initRes) := by
    unfold handleRequest
    rw [hd]
    show (true, respond (h ps) ps) = (true, initRes)
    rw [hr]
    rfl
  refine ⟨h1, by rw [h1]; rfl, by rw [h1]; rfl, ?_⟩
  unfold serverRespond
  rw [h1]
  rfl

/-- C10 (witness): a one-route table whose handler returns `undefined`. -/
theorem undefined_return_handled_no_write_witness :
    handleRequest [[{ method := "GET", path := "/x",
                      handler := some (fun _ => .ret none) }]] "GET" "/x" =
      (true, initRes) :=
  (undefined_return_handled_no_write
    [[{ method := "GET", path := "/x", handler := some (fun _ => .ret none) }]]
    "GET" "/x" (fun _ => .ret none) [] rfl rfl).1

/-- `Map.set` then `Map.get` at the same key yields the written value. -/
theorem mapGet_mapSet_self (m : Services) (k : Nat) (v : JSVal) :
    mapGet (mapSet m k v) k = some v := by
  unfold mapSet
  by_cases h : m.any (fun e => e.1 == k) = true
  · rw [if_pos h]
    unfold mapGet
    rw [List.find?_map]
    have hp : ((fun e : Nat × JSVal => e.1 == k) ∘
        (fun e : Nat × JSVal => if e.1 == k then (k, v) else e)) =
        (fun e : Nat × JSVal => e.1 == k) := by
      funext e
      by_cases he : (e.1 == k) = true
      · simp [Function.comp, he]
      · simp [Function.comp, he]
    rw [hp]
    rcases ha : m.find? (fun e => e.1 == k) with _ | e
    · rw [List.find?_eq_none] at ha
      rcases List.any_eq_true.mp h with ⟨x, hx, hpx⟩
      exact absurd hpx (ha x hx)
    · obtain ⟨a, b⟩ := e
      have hpe := List.find?_some ha
      have hak : a = k := by simpa using hpe
      rw [ha]
      simp [hak]
  · rw [if_neg h]
    unfold mapGet
    rw [List.find?_append]
    have hnone : m.find? (fun e => e.1 == k) = none := by
      rw [List.find?_eq_none]
      intro x hx hpx
      exact h (List.any_eq_true.mpr ⟨x, hx, hpx⟩)
    rw [hnone]
    simp

/-- C6 (counterexample): `registerService` caches `null`, but the next
`getOrCreateService` does not return it: `if (!service)` treats the cached
falsy value like a miss and constructs (and re-caches) a fresh instance. -/
theorem falsy_instance_reconstructed :
    getOrCreateService (fun k => .obj k) 0 (registerService 0 .nullV []) =
      (.obj 0, [(0, .obj 0)], true) ∧ JSVal.obj 0 ≠ JSVal.nullV :=
  ⟨rfl, by decide⟩

/-- C6 (amended): two successive `getOrCreateService` calls return the
identical cached instance and the second constructs nothing (given that
construction yields a truthy value, as `new` always does); `registerService`
replaces any cached value; and a TRUTHY registered instance is returned
as-is by the next `getOrCreateService` with no construction — a falsy one
would be re-constructed instead. -/
theorem service_cache_semantics (construct : Nat → JSVal) (k : Nat)
    (m : Services) (i : JSVal) :
    (truthy (construct k) = true →
      getOrCreateService construct k (getOrCreateService construct k m).2.1 =
        ((getOrCreateService construct k m).1,
         (getOrCreateService construct k m).2.1, false)) ∧
    mapGet (registerService k i m) k = some i ∧
    (truthy i = true →
      getOrCreateService construct k (registerService k i m) =
        (i, registerService k i m, false)) := by
  refine ⟨?_, mapGet_mapSet_self m k i, ?_⟩
  · intro hc
    by_cases ht : truthy ((mapGet m k).getD .undefV) = true
    · simp only [getOrCreateService, ht, Bool.not_true, Bool.false_eq_true, if_false]
    · have ht' : (!truthy ((mapGet m k).getD .undefV)) = true := by
        simp [Bool.of_not_eq_true ht]
      simp only [getOrCreateService, ht', if_true]
      rw [mapGet_mapSet_self m k (construct k)]
      simp [hc]
  · intro hi
    unfold getOrCreateService registerService
    rw [mapGet_mapSet_self m k i]
    simp [hi]

/-- C6 (witness): a truthy registered instance is returned unchanged; a lazy
creation is cached and the second call constructs nothing. -/
theorem service_cache_semantics_witness :
    getOrCreateService (fun n => .obj n) 7 (registerService 7 (.obj 42) []) =
      (.obj 42, registerService 7 (.obj 42) [], false) ∧
    getOrCreateService (fun n => .obj n) 3 (getOrCreateService (fun n => .obj n) 3 []).2.1 =
      ((getOrCreateService (fun n => .obj n) 3 []).1,
       (getOrCreateService (fun n => .obj n) 3 []).2.1, false) :=
  ⟨(service_cache_semantics (fun n => .obj n) 7 [] (.obj 42)).2.2 rfl,
   (service_cache_semantics (fun n => .obj n) 3 [] .nullV).1 rfl⟩

theorem registerRouteMeta_pos {handler : String} {m : ControllerMeta}
    (method path : String) (hl : m.routes.any (hasHandler handler) = true) :
    registerRouteMeta method path handler m =
      ⟨updateFirst (hasHandler handler)
        (fun r => { r with method := method, path := path }) m.routes⟩ := by
  unfold registerRouteMeta
  rw [if_pos hl]

theorem registerRouteMeta_neg {handler : String} {m : ControllerMeta}
    (method path : String) (hl : m.routes.any (hasHandler handler) = false) :
    registerRouteMeta method path handler m =
      ⟨m.routes ++ [{ method := method, path := path, handler := handler,
                      paramNames := [], parameters := [] }]⟩ := by
  unfold registerRouteMeta
  rw [hl]
  rw [if_neg (by decide)]

theorem registerParamMeta_pos {handler : String} {m : ControllerMeta}
    (name : String) (i : Nat) (hl : m.routes.any (hasHandler handler) = true) :
    registerParamMeta handler name i m =
      ⟨updateFirst (hasHandler handler) (applyParamReg name i) m.routes⟩ := by
  unfold registerParamMeta
  rw [if_pos hl]

theorem registerParamMeta_neg {handler : String} {m : ControllerMeta}
    (name : String) (i : Nat) (hl : m.routes.any (hasHandler handler) = false) :
    registerParamMeta handler name i m =
      ⟨m.routes ++ [applyParamReg name i (freshRoute handler)]⟩ := by
  unfold registerParamMeta
  rw [hl]
  rw [if_neg (by decide)]

theorem hasHandler_self (handler : String) (r : RouteMeta) (h : r.handler = handler) :
    hasHandler handler r = true := by
  simp [hasHandler, h]

/-- `registerRoute` and `registerParam` commute on one controller's
metadata: the method decorator and a parameter decorator may run in either
order and build the same single route entry. -/
theorem registerMeta_comm (method path handler name : String) (i : Nat)
    (m : ControllerMeta) :
    registerRouteMeta method path handler (registerParamMeta handler name i m) =
      registerParamMeta handler name i (registerRouteMeta method path handler m) := by
  have hpresP : ∀ r : RouteMeta,
      hasHandler handler (applyParamReg name i r) = hasHandler handler r := fun _ => rfl
  have hpresR : ∀ r : RouteMeta,
      hasHandler handler { r with method := method, path := path } =
        hasHandler handler r := fun _ => rfl
  have hpresP' : ∀ r : RouteMeta, hasHandler handler r = true →
      hasHandler handler (applyParamReg name i r) = true :=
    fun r h => (hpresP r).trans h
  have hpresR' : ∀ r : RouteMeta, hasHandler handler r = true →
      hasHandler handler { r with method := method, path := path } = true :=
    fun r h => (hpresR r).trans h
  by_cases hb : m.routes.any (hasHandler handler) = true
  · rw [registerParamMeta_pos name i hb, registerRouteMeta_pos method path hb]
    rw [registerRouteMeta_pos method path (by rw [any_updateFirst hpresP]; exact hb)]
    rw [registerParamMeta_pos name i (by rw [any_updateFirst hpresR]; exact hb)]
    simp only
    rw [updateFirst_comp hpresP', updateFirst_comp hpresR']
    exact congrArg ControllerMeta.mk (updateFirst_congr (fun r => rfl) m.routes)
  · have hbf : m.routes.any (hasHandler handler) = false := by
      cases hany : m.routes.any (hasHandler handler)
      · rfl
      · exact absurd hany hb
    rw [registerParamMeta_neg name i hbf, registerRouteMeta_neg method path hbf]
    have hx : hasHandler handler (applyParamReg name i (freshRoute handler)) = true :=
      hasHandler_self handler _ rfl
    have hy : hasHandler handler
        { method := method, path := path, handler := handler,
          paramNames := [], parameters := [] } = true :=
      hasHandler_self handler _ rfl
    have hanyL : (m.routes ++ [applyParamReg name i (freshRoute handler)]).any
        (hasHandler handler) = true := by
      rw [List.any_append, hbf]
      simp [hx]
    have hanyR : (m.routes ++
        [({ method := method, path := path, handler := handler,
            paramNames := [], parameters := [] } : RouteMeta)]).any
          (hasHandler handler) = true := by
      rw [List.any_append, hbf]
      simp [hy]
    rw [registerRouteMeta_pos method path hanyL, registerParamMeta_pos name i hanyR]
    simp only
    rw [updateFirst_append_notany hbf hx, updateFirst_append_notany hbf hy]
    rfl

theorem mapController_congr {t : Nat} {f g : ControllerMeta → ControllerMeta}
    (h : ∀ m, f m = g m) (reg : Registry) :
    mapController t f reg = mapController t g reg := by
  unfold mapController
  congr 1
  funext e
  by_cases he : (e.1 == t) = true <;> simp [he, h]

theorem mapController_mapController (t : Nat) (f g : ControllerMeta → ControllerMeta)
    (reg : Registry) :
    mapController t f (mapController t g reg) = mapController t (fun m => f (g m)) reg := by
  unfold mapController
  rw [List.map_map]
  congr 1
  funext e
  by_cases he : (e.1 == t) = true <;> simp [Function.comp, he]

theorem any_key_mapController (t t' : Nat) (f : ControllerMeta → ControllerMeta)
    (reg : Registry) :
    (mapController t f reg).any (fun e => e.1 == t') = reg.any (fun e => e.1 == t') := by
  unfold mapController
  rw [List.any_map]
  congr 1
  funext e
  by_cases he : (e.1 == t) = true <;> simp [Function.comp, he]

theorem ensureController_any (t : Nat) (reg : Registry) :
    (ensureController t reg).any (fun e => e.1 == t) = true := by
  unfold ensureController
  by_cases h : reg.any (fun e => e.1 == t) = true
  · rw [if_pos h]
    exact h
  · rw [if_neg h]
    rw [List.any_append]
    simp

theorem ensureController_of_any {t : Nat} {reg : Registry}
    (h : reg.any (fun e => e.1 == t) = true) : ensureController t reg = reg := by
  unfold ensureController
  rw [if_pos h]

/-- C4: registering the route and registering a path parameter commute as
registry transformers (parameter decorators may run before or after the
method decorator); `registerRoute` on an existing entry overwrites only
`method` and `path`, preserving every previously registered parameter spec
and the `paramNames` array; and each registration keeps exactly one route
entry per handler. -/
theorem register_route_param_commute (reg : Registry) (t : Nat)
    (method path handler name : String) (i : Nat) :
    (registerRoute t method path handler (registerParam t handler name i reg) =
      registerParam t handler name i (registerRoute t method path handler reg)) ∧
    (∀ (m : ControllerMeta) (r : RouteMeta), findRoute handler m = some r →
      findRoute handler (registerRouteMeta method path handler m) =
        some { r with method := method, path := path }) ∧
    (∀ m : ControllerMeta, m.routes.countP (hasHandler handler) ≤ 1 →
      (registerRouteMeta method path handler m).routes.countP (hasHandler handler) = 1) ∧
    (∀ m : ControllerMeta, m.routes.countP (hasHandler handler) ≤ 1 →
      (registerParamMeta handler name i m).routes.countP (hasHandler handler) = 1) := by
  have hpresR : ∀ r : RouteMeta,
      hasHandler handler { r with method := method, path := path } =
        hasHandler handler r := fun _ => rfl
  have hpresP : ∀ r : RouteMeta,
      hasHandler handler (applyParamReg name i r) = hasHandler handler r := fun _ => rfl
  refine ⟨?_, ?_, ?_, ?_⟩
  · unfold registerRoute registerParam
    have e1 : ensureController t (mapController t (registerParamMeta handler name i)
          (ensureController t reg)) =
        mapController t (registerParamMeta handler name i) (ensureController t reg) :=
      ensureController_of_any (by
        rw [any_key_mapController]
        exact ensureController_any t reg)
    have e2 : ensureController t (mapController t (registerRouteMeta method path handler)
          (ensureController t reg)) =
        mapController t (registerRouteMeta method path handler) (ensureController t reg) :=
      ensureController_of_any (by
        rw [any_key_mapController]
        exact ensureController_any t reg)
    rw [e1, e2]
    rw [mapController_mapController, mapController_mapController]
    exact mapController_congr (fun m => registerMeta_comm method path handler name i m) _
  · intro m r hr
    have hb : m.routes.any (hasHandler handler) = true :=
      List.any_eq_true.mpr ⟨r, List.mem_of_find?_eq_some hr, List.find?_some hr⟩
    rw [registerRouteMeta_pos method path hb]
    unfold findRoute at hr ⊢
    rw [find?_updateFirst hpresR, hr]
    rfl
  · intro m hc
    by_cases hb : m.routes.any (hasHandler handler) = true
    · rw [registerRouteMeta_pos method path hb]
      simp only
      rw [countP_updateFirst hpresR]
      rcases List.any_eq_true.mp hb with ⟨r, hmem, hpr⟩
      have : 0 < m.routes.countP (hasHandler handler) :=
        List.countP_pos_iff.mpr ⟨r, hmem, hpr⟩
      omega
    · have hbf : m.routes.any (hasHandler handler) = false := by
        cases hany : m.routes.any (hasHandler handler)
        · rfl
        · exact absurd hany hb
      rw [registerRouteMeta_neg method path hbf]
      simp only
      rw [List.countP_append]
      have h0 : m.routes.countP (hasHandler handler) = 0 :=
        List.countP_eq_zero.mpr (fun a ha hpa =>
          (Bool.not_eq_true _).mpr (by
            have := List.any_eq_true.mpr ⟨a, ha, hpa⟩
            rw [hbf] at this
            exact absurd this (by decide)) hpa)
      rw [h0]
      simp [List.countP_cons, hasHandler]
  · intro m hc
    by_cases hb : m.routes.any (hasHandler handler) = true
    · rw [registerParamMeta_pos name i hb]
      simp only
      rw [countP_updateFirst hpresP]
      rcases List.any_eq_true.mp hb with ⟨r, hmem, hpr⟩
      have : 0 < m.routes.countP (hasHandler handler) :=
        List.countP_pos_iff.mpr ⟨r, hmem, hpr⟩
      omega
    · have hbf : m.routes.any (hasHandler handler) = false := by
        cases hany : m.routes.any (hasHandler handler)
        · rfl
        · exact absurd hany hb
      rw [registerParamMeta_neg name i hbf]
      simp only
      rw [List.countP_append]
      have h0 : m.routes.countP (hasHandler handler) = 0 := by
        rw [List.countP_eq_zero]
        intro a ha hpa
        have := List.any_eq_true.mpr ⟨a, ha, hpa⟩
        rw [hbf] at this
        exact absurd this (by decide)
      rw [h0]
      simp [List.countP_cons, applyParamReg, freshRoute, hasHandler]

/-- C4 (witness): the commutation and the overwrite/preserve behaviour at a
concrete registry: parameter decorator first, then the method decorator,
and vice versa, give the same registry. -/
theorem register_route_param_commute_witness :
    registerRoute 1 "GET" "/time/:timezone" "getTimeByTimezone"
        (registerParam 1 "getTimeByTimezone" "timezone" 0 []) =
      registerParam 1 "getTimeByTimezone" "timezone" 0
        (registerRoute 1 "GET" "/time/:timezone" "getTimeByTimezone" []) ∧
    findRoute "h" (registerRouteMeta "GET" "/p" "h"
        ⟨[{ method := "", path := "", handler := "h", paramNames := [some "a"],
            parameters := [⟨0, .param, some "a", none⟩] }]⟩) =
      some { method := "GET", path := "/p", handler := "h",
             paramNames := [some "a"], parameters := [⟨0, .param, some "a", none⟩] } :=
  ⟨(register_route_param_commute [] 1 "GET" "/time/:timezone" "getTimeByTimezone"
      "timezone" 0).1,
   (register_route_param_commute [] 1 "GET" "/p" "h" "x" 0).2.1
     ⟨[{ method := "", path := "", handler := "h", paramNames := [some "a"],
         parameters := [⟨0, .param, some "a", none⟩] }]⟩
     { method := "", path := "", handler := "h", paramNames := [some "a"],
       parameters := [⟨0, .param, some "a", none⟩] } rfl⟩

/-- At most one `ParameterSpec` per positional index: the indices of a
route's `parameters` list are pairwise distinct. -/
def uniqIdx (ps : List ParamMeta) : Prop :=
  (ps.map (fun p => p.index)).Pairwise (fun a b => a ≠ b)

/-- The index-uniqueness invariant over the whole registry. -/
def RegInv (reg : Registry) : Prop :=
  ∀ e ∈ reg, ∀ r ∈ e.2.routes, uniqIdx r.parameters

theorem uniqIdx_upsertParam (n : String) (i : Nat) (ps : List ParamMeta)
    (h : uniqIdx ps) : uniqIdx (upsertParamSpec n i ps) := by
  unfold upsertParamSpec
  by_cases hb : ps.any (fun p => p.index == i) = true
  · rw [if_pos hb]
    unfold uniqIdx at h ⊢
    have hidx : ∀ q : ParamMeta,
        ({ q with type := PKind.param, name := some n } : ParamMeta).index = q.index :=
      fun _ => rfl
    rw [map_updateFirst hidx]
    exact h
  · rw [if_neg hb]
    have hb' : ps.any (fun p => p.index == i) = false := by
      cases hq : ps.any (fun p => p.index == i)
      · rfl
      · exact absurd hq hb
    unfold uniqIdx at h ⊢
    rw [List.map_append, List.pairwise_append]
    refine ⟨h, by simp, ?_⟩
    intro a ha b hbm
    simp only [List.map_cons, List.map_nil, List.mem_singleton] at hbm
    subst hbm
    rcases List.mem_map.mp ha with ⟨p, hp, rfl⟩
    have := List.any_eq_false.mp hb' p hp
    simpa using this

theorem uniqIdx_upsertService (i stype : Nat) (ps : List ParamMeta)
    (h : uniqIdx ps) : uniqIdx (upsertServiceSpec i stype ps) := by
  unfold upsertServiceSpec
  by_cases hb : ps.any (fun p => p.index == i) = true
  · rw [if_pos hb]
    unfold uniqIdx at h ⊢
    have hidx : ∀ q : ParamMeta,
        ({ q with type := PKind.service, serviceType := some stype } : ParamMeta).index =
          q.index := fun _ => rfl
    rw [map_updateFirst hidx]
    exact h
  · rw [if_neg hb]
    have hb' : ps.any (fun p => p.index == i) = false := by
      cases hq : ps.any (fun p => p.index == i)
      · rfl
      · exact absurd hq hb
    unfold uniqIdx at h ⊢
    rw [List.map_append, List.pairwise_append]
    refine ⟨h, by simp, ?_⟩
    intro a ha b hbm
    simp only [List.map_cons, List.map_nil, List.mem_singleton] at hbm
    subst hbm
    rcases List.mem_map.mp ha with ⟨p, hp, rfl⟩
    have := List.any_eq_false.mp hb' p hp
    simpa using this

theorem registerServiceParamMeta_pos {handler : String} {m : ControllerMeta}
    (i stype : Nat) (hl : m.routes.any (hasHandler handler) = true) :
    registerServiceParamMeta handler i stype m =
      ⟨updateFirst (hasHandler handler) (applyServiceReg i stype) m.routes⟩ := by
  unfold registerServiceParamMeta
  rw [if_pos hl]

theorem registerServiceParamMeta_neg {handler : String} {m : ControllerMeta}
    (i stype : Nat) (hl : m.routes.any (hasHandler handler) = false) :
    registerServiceParamMeta handler i stype m =
      ⟨m.routes ++ [applyServiceReg i stype (freshRoute handler)]⟩ := by
  unfold registerServiceParamMeta
  rw [hl]
  rw [if_neg (by decide)]

theorem registerParamMeta_inv (handler name : String) (i : Nat) (m : ControllerMeta)
    (h : ∀ r ∈ m.routes, uniqIdx r.parameters) :
    ∀ r ∈ (registerParamMeta handler name i m).routes, uniqIdx r.parameters := by
  by_cases hb : m.routes.any (hasHandler handler) = true
  · rw [registerParamMeta_pos name i hb]
    intro r hr
    rcases mem_updateFirst hr with hmem | ⟨a, ha, rfl⟩
    · exact h r hmem
    · exact uniqIdx_upsertParam name i a.parameters (h a ha)
  · have hbf : m.routes.any (hasHandler handler) = false := by
      cases hq : m.routes.any (hasHandler handler)
      · rfl
      · exact absurd hq hb
    rw [registerParamMeta_neg name i hbf]
    intro r hr
    rcases List.mem_append.mp hr with hmem | hnew
    · exact h r hmem
    · rw [List.mem_singleton] at hnew
      subst hnew
      show uniqIdx (upsertParamSpec name i [])
      simp [uniqIdx, upsertParamSpec]

theorem registerServiceParamMeta_inv (handler : String) (i stype : Nat)
    (m : ControllerMeta) (h : ∀ r ∈ m.routes, uniqIdx r.parameters) :
    ∀ r ∈ (registerServiceParamMeta handler i stype m).routes, uniqIdx r.parameters := by
  by_cases hb : m.routes.any (hasHandler handler) = true
  · rw [registerServiceParamMeta_pos i stype hb]
    intro r hr
    rcases mem_updateFirst hr with hmem | ⟨a, ha, rfl⟩
    · exact h r hmem
    · exact uniqIdx_upsertService i stype a.parameters (h a ha)
  · have hbf : m.routes.any (hasHandler handler) = false := by
      cases hq : m.routes.any (hasHandler handler)
      · rfl
      · exact absurd hq hb
    rw [registerServiceParamMeta_neg i stype hbf]
    intro r hr
    rcases List.mem_append.mp hr with hmem | hnew
    · exact h r hmem
    · rw [List.mem_singleton] at hnew
      subst hnew
      show uniqIdx (upsertServiceSpec i stype [])
      simp [uniqIdx, upsertServiceSpec]

theorem RegInv_ensure {reg : Registry} (t : Nat) (h : RegInv reg) :
    RegInv (ensureController t reg) := by
  unfold ensureController
  by_cases hc : reg.any (fun e => e.1 == t) = true
  · rw [if_pos hc]
    exact h
  · rw [if_neg hc]
    intro e he r hr
    rcases List.mem_append.mp he with hmem | hnew
    · exact h e hmem r hr
    · rw [List.mem_singleton] at hnew
      subst hnew
      simp at hr

theorem RegInv_mapController {t : Nat} {F : ControllerMeta → ControllerMeta}
    (hF : ∀ m, (∀ r ∈ m.routes, uniqIdx r.parameters) →
      ∀ r ∈ (F m).routes, uniqIdx r.parameters)
    {reg : Registry} (h : RegInv reg) : RegInv (mapController t F reg) := by
  intro e he r hr
  rcases List.mem_map.mp he with ⟨e0, he0, rfl⟩
  by_cases ht : (e0.1 == t) = true
  · simp only [ht, if_true] at hr ⊢
    exact hF e0.2 (fun r' hr' => h e0 he0 r' hr') r hr
  · simp only [ht, if_false] at hr ⊢
    exact h e0 he0 r hr

theorem upsertParam_any (n : String) (i : Nat) (ps : List ParamMeta) :
    (upsertParamSpec n i ps).any (fun p => p.index == i) = true := by
  unfold upsertParamSpec
  by_cases hb : ps.any (fun p => p.index == i) = true
  · rw [if_pos hb]
    have hpp : ∀ q : ParamMeta,
        (({ q with type := PKind.param, name := some n } : ParamMeta).index == i) =
          (q.index == i) := fun _ => rfl
    rw [any_updateFirst hpp]
    exact hb
  · rw [if_neg hb]
    rw [List.any_append]
    simp

theorem upsertService_any (i stype : Nat) (ps : List ParamMeta) :
    (upsertServiceSpec i stype ps).any (fun p => p.index == i) = true := by
  unfold upsertServiceSpec
  by_cases hb : ps.any (fun p => p.index == i) = true
  · rw [if_pos hb]
    have hpp : ∀ q : ParamMeta,
        (({ q with type := PKind.service, serviceType := some stype } : ParamMeta).index == i) =
          (q.index == i) := fun _ => rfl
    rw [any_updateFirst hpp]
    exact hb
  · rw [if_neg hb]
    rw [List.any_append]
    simp

/-- C5: index-uniqueness of a route's parameter specs is an invariant of
both `registerParam` and `registerServiceParameter` (over the whole
registry); and the upsert is in-place, last-writer-wins: re-targeting an
index never grows the list, and the spec found at that index afterwards
carries the later call's kind and owned field. -/
theorem param_index_unique_invariant (reg : Registry) (t : Nat)
    (handler name : String) (i stype : Nat) (ps : List ParamMeta) :
    (RegInv reg → RegInv (registerParam t handler name i reg)) ∧
    (RegInv reg → RegInv (registerServiceParameter t handler i stype reg)) ∧
    ((upsertServiceSpec i stype (upsertParamSpec name i ps)).length =
      (upsertParamSpec name i ps).length) ∧
    (∃ spec, (upsertServiceSpec i stype (upsertParamSpec name i ps)).find?
        (fun p => p.index == i) = some spec ∧
      spec.type = .service ∧ spec.serviceType = some stype) ∧
    ((upsertParamSpec name i (upsertServiceSpec i stype ps)).length =
      (upsertServiceSpec i stype ps).length) ∧
    (∃ spec, (upsertParamSpec name i (upsertServiceSpec i stype ps)).find?
        (fun p => p.index == i) = some spec ∧
      spec.type = .param ∧ spec.name = some name) := by
  refine ⟨?_, ?_, ?_, ?_, ?_, ?_⟩
  · intro h
    exact RegInv_mapController (registerParamMeta_inv handler name i) (RegInv_ensure t h)
  · intro h
    exact RegInv_mapController (registerServiceParamMeta_inv handler i stype) (RegInv_ensure t h)
  · unfold upsertServiceSpec
    rw [if_pos (upsertParam_any name i ps)]
    exact length_updateFirst _ _ _
  · unfold upsertServiceSpec
    rw [if_pos (upsertParam_any name i ps)]
    have hpp : ∀ q : ParamMeta,
        (({ q with type := PKind.service, serviceType := some stype } : ParamMeta).index == i) =
          (q.index == i) := fun _ => rfl
    rw [find?_updateFirst hpp]
    rcases hf : (upsertParamSpec name i ps).find? (fun p => p.index == i) with _ | p0
    · rw [List.find?_eq_none] at hf
      rcases List.any_eq_true.mp (upsertParam_any name i ps) with ⟨x, hx, hpx⟩
      exact absurd hpx (hf x hx)
    · rw [hf]
      exact ⟨_, rfl, rfl, rfl⟩
  · unfold upsertParamSpec
    rw [if_pos (upsertService_any i stype ps)]
    exact length_updateFirst _ _ _
  · unfold upsertParamSpec
    rw [if_pos (upsertService_any i stype ps)]
    have hpp : ∀ q : ParamMeta,
        (({ q with type := PKind.param, name := some name } : ParamMeta).index == i) =
          (q.index == i) := fun _ => rfl
    rw [find?_updateFirst hpp]
    rcases hf : (upsertServiceSpec i stype ps).find? (fun p => p.index == i) with _ | p0
    · rw [List.find?_eq_none] at hf
      rcases List.any_eq_true.mp (upsertService_any i stype ps) with ⟨x, hx, hpx⟩
      exact absurd hpx (hf x hx)
    · rw [hf]
      exact ⟨_, rfl, rfl, rfl⟩

/-- C5 (witness): the invariant clauses applied at an empty registry, and
the last-writer-wins clauses at a one-spec list. -/
theorem param_index_unique_invariant_witness :
    RegInv (registerParam 1 "h" "a" 0 []) ∧
    (upsertServiceSpec 0 9 (upsertParamSpec "a" 0 [])).length =
      (upsertParamSpec "a" 0 []).length :=
  ⟨(param_index_unique_invariant [] 1 "h" "a" 0 9 []).1 (by intro e he; simp at he),
   (param_index_unique_invariant [] 1 "h" "a" 0 9 []).2.2.1⟩

/-- `onConnect` on a state whose client keys are fresh-bounded and whose
timer handles are fresh-bounded adds exactly one live timer for the new
record's socket and keeps every existing timer alive. -/
theorem timersFor_onConnect (ok : String → Bool) (instKey : String)
    (sock : Nat) (tz : String) (st : SState)
    (hwf : ∀ e ∈ st.clients, ∀ tm, e.2.intervalId = some tm → tm < st.nextTimer)
    (hfresh : ∀ e ∈ st.clients, e.1 < st.nextClient) :
    timersFor sock (onConnect ok instKey sock tz st) = timersFor sock st + 1 ∧
    (onConnect ok instKey sock tz st).activeTimers = st.activeTimers ++ [st.nextTimer] := by
  have hmap : (st.clients ++ [(st.nextClient, (⟨sock, tz, none⟩ : ClientRec))]).map
      (fun e => if e.1 == st.nextClient
        then (st.nextClient, (⟨sock, tz, some st.nextTimer⟩ : ClientRec)) else e) =
      st.clients ++ [(st.nextClient, (⟨sock, tz, some st.nextTimer⟩ : ClientRec))] := by
    rw [List.map_append]
    have hid : ∀ e ∈ st.clients,
        (if e.1 == st.nextClient
          then (st.nextClient, (⟨sock, tz, some st.nextTimer⟩ : ClientRec)) else e) =
        id e := by
      intro e he
      have hne : e.1 ≠ st.nextClient := Nat.ne_of_lt (hfresh e he)
      simp [hne]
    have h1 : st.clients.map
        (fun e => if e.1 == st.nextClient
          then (st.nextClient, (⟨sock, tz, some st.nextTimer⟩ : ClientRec)) else e) =
        st.clients := by
      rw [List.map_congr_left hid, List.map_id]
    rw [h1]
    simp
  constructor
  · show (timersFor sock
      { nextClient := st.nextClient + 1,
        nextTimer := st.nextTimer + 1,
        clients := (st.clients ++ [(st.nextClient, (⟨sock, tz, none⟩ : ClientRec))]).map
          (fun e => if e.1 == st.nextClient
            then (st.nextClient, (⟨sock, tz, some st.nextTimer⟩ : ClientRec)) else e),
        instances := st.instances.map (fun e =>
          if e.1 == instKey then (e.1, { e.2 with clients := e.2.clients ++ [st.nextClient] })
          else e),
        rooms := st.rooms,
        activeTimers := st.activeTimers ++ [st.nextTimer],
        emitted := st.emitted ++
          [if ok tz then ⟨sock, "time-update", tz⟩ else ⟨sock, "error", tz⟩] }) =
      timersFor sock st + 1
    unfold timersFor
    rw [hmap]
    simp only [List.countP_append]
    have hold : st.clients.countP (fun e =>
        e.2.sock == sock &&
          (match e.2.intervalId with
           | some tm => (st.activeTimers ++ [st.nextTimer]).contains tm
           | none => false)) =
        st.clients.countP (fun e =>
          e.2.sock == sock &&
            (match e.2.intervalId with
             | some tm => st.activeTimers.contains tm
             | none => false)) := by
      apply List.countP_congr
      intro e he
      rcases hi : e.2.intervalId with _ | tm
      · simp
      · have hne : tm ≠ st.nextTimer := Nat.ne_of_lt (hwf e he tm hi)
        simp [hi, hne]
    rw [hold]
    simp
  · rfl

/-- C7 (counterexample): re-subscribing the same socket does not destroy
the old record or cancel its timer — after two subscribes from socket 5,
two timers are live for that one connection, refuting "at most one active
per-connection timer". -/
theorem resubscribe_two_timers :
    timersFor 5 (subscribe ["/time/live/:timezone"] (fun _ => true) 5 "UTC"
      (subscribe ["/time/live/:timezone"] (fun _ => true) 5 "UTC" initS)) = 2 ∧
    ¬(timersFor 5 (subscribe ["/time/live/:timezone"] (fun _ => true) 5 "UTC"
      (subscribe ["/time/live/:timezone"] (fun _ => true) 5 "UTC" initS)) ≤ 1) := by
  constructor
  · rfl
  · decide

/-- C7 (amended): a subscribe with a matching route always creates a fresh
client record with a fresh timer and cancels nothing: the number of live
timers for that socket grows by exactly one (so a re-subscribed connection
holds two live timers, and old timers survive until the disconnect
handlers cancel them). -/
theorem subscribe_matched (routes : List String) (ok : String → Bool) (sock : Nat)
    (tz : String) (st : SState) (r : String)
    (hr : routes.find? (fun q => (matchTimezoneRoute tz q).isSome) = some r) :
    subscribe routes ok sock tz st =
      onConnect ok ("TimezoneWebSocket-" ++ tz) sock tz
        (if st.instances.any (fun e => e.1 == "TimezoneWebSocket-" ++ tz) then
          { st with rooms := if st.rooms.contains ("timezone-" ++ tz, sock) then st.rooms
                             else st.rooms ++ [("timezone-" ++ tz, sock)] }
         else
          { st with rooms := if st.rooms.contains ("timezone-" ++ tz, sock) then st.rooms
                             else st.rooms ++ [("timezone-" ++ tz, sock)],
                    instances := st.instances ++
                      [("TimezoneWebSocket-" ++ tz, ⟨tz, []⟩)] }) := by
  unfold subscribe
  rw [hr]

theorem resubscribe_adds_timer (routes : List String) (ok : String → Bool)
    (sock : Nat) (tz : String) (st : SState)
    (hroute : (routes.find? (fun r => (matchTimezoneRoute tz r).isSome)).isSome = true)
    (hwf : ∀ e ∈ st.clients, ∀ tm, e.2.intervalId = some tm → tm < st.nextTimer)
    (hfresh : ∀ e ∈ st.clients, e.1 < st.nextClient) :
    timersFor sock (subscribe routes ok sock tz st) = timersFor sock st + 1 ∧
    ∀ tm ∈ st.activeTimers, tm ∈ (subscribe routes ok sock tz st).activeTimers := by
  rcases hr : routes.find? (fun r => (matchTimezoneRoute tz r).isSome) with _ | r
  · rw [hr] at hroute
    exact absurd hroute (by decide)
  · rw [subscribe_matched routes ok sock tz st r hr]
    by_cases hinst : st.instances.any
        (fun e => e.1 == "TimezoneWebSocket-" ++ tz) = true
    · rw [if_pos hinst]
      have h := timersFor_onConnect ok ("TimezoneWebSocket-" ++ tz) sock tz
        { st with rooms := if st.rooms.contains ("timezone-" ++ tz, sock) then st.rooms
                           else st.rooms ++ [("timezone-" ++ tz, sock)] } hwf hfresh
      exact ⟨h.1, fun tm htm => by
        rw [h.2]
        exact List.mem_append_left _ htm⟩
    · rw [if_neg hinst]
      have h := timersFor_onConnect ok ("TimezoneWebSocket-" ++ tz) sock tz
        { st with rooms := if st.rooms.contains ("timezone-" ++ tz, sock) then st.rooms
                           else st.rooms ++ [("timezone-" ++ tz, sock)],
                  instances := st.instances ++ [("TimezoneWebSocket-" ++ tz, ⟨tz, []⟩)] }
        hwf hfresh
      exact ⟨h.1, fun tm htm => by
        rw [h.2]
        exact List.mem_append_left _ htm⟩

/-- C7 (witness): the amended theorem at the initial state. -/
theorem resubscribe_adds_timer_witness :
    timersFor 5 (subscribe ["/time/live/:timezone"] (fun _ => true) 5 "UTC" initS) =
      timersFor 5 initS + 1 :=
  (resubscribe_adds_timer ["/time/live/:timezone"] (fun _ => true) 5 "UTC" initS
    (by decide)
    (by intro e he; simp [initS] at he)
    (by intro e he; simp [initS] at he)).1

/-- C8: the `change-timezone` handler mutates only the aliased client
record's stored timezone and pushes exactly one update to that
connection's socket: rooms (broadcast groups), the controller-instance
cache and every instance's client set, all timers, the id counters, the
record's own timer handle and every other client record are unchanged. -/
theorem change_topic_frame (ok : String → Bool) (cid : Nat) (newTz : String)
    (st : SState) (c : ClientRec) (h : lookupClient cid st = some c) :
    (changeTimezone ok cid newTz st).rooms = st.rooms ∧
    (changeTimezone ok cid newTz st).instances = st.instances ∧
    (changeTimezone ok cid newTz st).activeTimers = st.activeTimers ∧
    (changeTimezone ok cid newTz st).nextClient = st.nextClient ∧
    (changeTimezone ok cid newTz st).nextTimer = st.nextTimer ∧
    (changeTimezone ok cid newTz st).emitted = st.emitted ++
      [if ok newTz then ⟨c.sock, "time-update", newTz⟩
       else ⟨c.sock, "error", newTz⟩] ∧
    lookupClient cid (changeTimezone ok cid newTz st) =
      some { c with timezone := newTz } ∧
    (∀ cid2, cid2 ≠ cid →
      lookupClient cid2 (changeTimezone ok cid newTz st) = lookupClient cid2 st) := by
  have hch : changeTimezone ok cid newTz st =
      sendTimeUpdate ok { c with timezone := newTz }
        (setClient cid { c with timezone := newTz } st) := by
    unfold changeTimezone
    rw [h]
  rcases Option.map_eq_some'.mp h with ⟨e, hfind, he2⟩
  have he1 : (e.1 == cid) = true := by simpa using List.find?_some hfind
  have hkey : ∀ e' : Nat × ClientRec,
      ((if e'.1 == cid then (cid, { c with timezone := newTz }) else e').1 == cid) =
        (e'.1 == cid) := by
    intro e'
    by_cases hk : (e'.1 == cid) = true
    · simp [hk]
    · simp only [Bool.not_eq_true] at hk
      simp [hk]
  refine ⟨by rw [hch]; rfl, by rw [hch]; rfl, by rw [hch]; rfl, by rw [hch]; rfl,
    by rw [hch]; rfl, by rw [hch]; rfl, ?_, ?_⟩
  · rw [hch]
    show lookupClient cid (setClient cid { c with timezone := newTz } st) =
      some { c with timezone := newTz }
    unfold lookupClient setClient
    simp only
    rw [List.find?_map]
    have hp : ((fun kv : Nat × ClientRec => kv.1 == cid) ∘
        (fun e' => if e'.1 == cid then (cid, { c with timezone := newTz }) else e')) =
        (fun kv : Nat × ClientRec => kv.1 == cid) := by
      funext e'
      exact hkey e'
    rw [hp, hfind]
    have hecid : e.1 = cid := by simpa using he1
    simp [hecid]
  · intro cid2 hne
    rw [hch]
    show lookupClient cid2 (setClient cid { c with timezone := newTz } st) =
      lookupClient cid2 st
    unfold lookupClient setClient
    simp only
    rw [List.find?_map]
    have hp : ((fun kv : Nat × ClientRec => kv.1 == cid2) ∘
        (fun e' => if e'.1 == cid then (cid, { c with timezone := newTz }) else e')) =
        (fun kv : Nat × ClientRec => kv.1 == cid2) := by
      funext e'
      by_cases hk : (e'.1 == cid) = true
      · have : e'.1 = cid := by simpa using hk
        simp [hk, this, Ne.symm hne]
      · have hkne : e'.1 ≠ cid := by simpa using hk
        simp [hkne]
    rw [hp]
    rcases hf2 : st.clients.find? (fun kv => kv.1 == cid2) with _ | e2
    · rw [hf2]
      rfl
    · rw [hf2]
      have he21 : (e2.1 == cid2) = true := by simpa using List.find?_some hf2
      have he2cid2 : e2.1 = cid2 := by simpa using he21
      have hk2 : e2.1 ≠ cid := by
        rw [he2cid2]
        exact hne
      simp [hk2]

/-- C8 (witness): after a subscribe, changing the topic of the single
client record rebinds only its timezone (timer handle 0 kept) and leaves
the timers untouched. -/
theorem change_topic_frame_witness :
    lookupClient 0 (changeTimezone (fun _ => true) 0 "Asia/Tokyo"
        (subscribe ["/time/live/:timezone"] (fun _ => true) 5 "UTC" initS)) =
      some { sock := 5, timezone := "Asia/Tokyo", intervalId := some 0 } ∧
    (changeTimezone (fun _ => true) 0 "Asia/Tokyo"
        (subscribe ["/time/live/:timezone"] (fun _ => true) 5 "UTC" initS)).activeTimers =
      (subscribe ["/time/live/:timezone"] (fun _ => true) 5 "UTC" initS).activeTimers :=
  ⟨(change_topic_frame (fun _ => true) 0 "Asia/Tokyo"
      (subscribe ["/time/live/:timezone"] (fun _ => true) 5 "UTC" initS)
      ⟨5, "UTC", some 0⟩ rfl).2.2.2.2.2.2.1,
   (change_topic_frame (fun _ => true) 0 "Asia/Tokyo"
      (subscribe ["/time/live/:timezone"] (fun _ => true) 5 "UTC" initS)
      ⟨5, "UTC", some 0⟩ rfl).2.2.1⟩

end TZ
